import Mathlib

attribute [local semireducible] Rat.mul Rat.add Rat.inv Rat.sub Rat.ofScientific

deriving instance DecidableEq for Except

/-!
Shallow embedding of the `ms-parser` library (src/index.ts).

Numbers are modelled as rationals: every numeric literal admitted by the
parser's pattern denotes an exact rational, and all unit multipliers are
integers (YEAR = 86400000 * 365.25 = 31557600000), so the JavaScript
double arithmetic performed by the library is exact on all values the
theorems below evaluate.  `parseFloat` of a matched numeric literal is
always finite here, so the `InvalidNumber` branch of `parse` and the
`NotFinite` branch of `format` cannot fire in this model.
-/

namespace MsParser

/-- Time constants in milliseconds: `const SECOND = 1000`. -/
def SECOND : ℚ := 1000

/-- Time constants in milliseconds: `const MINUTE = SECOND * 60`. -/
def MINUTE : ℚ := SECOND * 60

/-- Time constants in milliseconds: `const HOUR = MINUTE * 60`. -/
def HOUR : ℚ := MINUTE * 60

/-- Time constants in milliseconds: `const DAY = HOUR * 24`. -/
def DAY : ℚ := HOUR * 24

/-- Time constants in milliseconds: `const WEEK = DAY * 7`. -/
def WEEK : ℚ := DAY * 7

/-- Time constants in milliseconds: `const YEAR = DAY * 365.25`. -/
def YEAR : ℚ := DAY * (365.25 : ℚ)

/-- The error conditions thrown by the library, one constructor per
`throw new Error(...)` site, carrying the data interpolated into the
message (configured limit, original input, offending token). -/
inductive ParseError where
  | emptyInput : ParseError
  | tooLong (maxLength : ℤ) : ParseError
  | invalidFormat (input : String) : ParseError
  | invalidNumber (numStr : String) : ParseError
  | unknownUnit (unit : String) : ParseError
deriving DecidableEq

/-- `interface ParseOptions { maxLength?: number }`; `none` models an
absent field, resolved by `options.maxLength ?? 100`. -/
structure ParseOptions where
  maxLength : Option ℤ := none

/-- `interface FormatOptions { long?: boolean }`; the code tests
truthiness of `options.long`, absent meaning `false`. -/
structure FormatOptions where
  long : Bool := false

/-- The regex class `\d`, via code points for easy arithmetic reasoning. -/
def isDigitChar (c : Char) : Bool := decide (48 ≤ c.toNat ∧ c.toNat ≤ 57)

/-- A literal space, the only character the regex gap `" *"` admits. -/
def spaceChar (c : Char) : Bool := c == ' '

/-- The whitespace characters removed by `String.prototype.trim` (ASCII
part; the Unicode space characters never occur in the inputs treated here). -/
def jsWhitespaceChar (c : Char) : Bool :=
  c == ' ' || c == '\t' || c == '\n' || c == '\r' || c == '\x0b' || c == '\x0c'

/-- ASCII lower-casing as performed by `toLowerCase()` and by the `/i`
regex flag on the alias alternation. -/
def toLowerChar (c : Char) : Char :=
  if 65 ≤ c.toNat ∧ c.toNat ≤ 90 then Char.ofNat (c.toNat + 32) else c

/-- `value.trim()`: remove whitespace from both ends. -/
def trimChars (cs : List Char) : List Char :=
  ((cs.dropWhile jsWhitespaceChar).reverse.dropWhile jsWhitespaceChar).reverse

/-- The characters a numeric-group match can consume: digits, `.`, `-`. -/
def numClass (c : Char) : Bool := isDigitChar c || c == '.' || c == '-'

/-- The unsigned part of the numeric group `(?:\d+)?\.?\d+`: digits, or
optional digits followed by `.` and at least one digit. -/
def numBody (cs : List Char) : Bool :=
  if (cs.dropWhile isDigitChar).isEmpty then !(cs.takeWhile isDigitChar).isEmpty
  else if (cs.dropWhile isDigitChar).head? = some '.' then
    !(cs.dropWhile isDigitChar).tail.isEmpty
      && (cs.dropWhile isDigitChar).tail.all isDigitChar
  else false

/-- The numeric group `-?(?:\d+)?\.?\d+` of the parse regex. -/
def numGrammar (cs : List Char) : Bool :=
  if cs.head? = some '-' then numBody cs.tail else numBody cs

/-- Value of a digit string, most significant first. -/
def digitsToNat (ds : List Char) : ℕ := ds.foldl (fun a c => 10 * a + (c.toNat - 48)) 0

/-- Exact value of an unsigned numeric literal (`parseFloat` without sign). -/
def parseUnsigned (cs : List Char) : ℚ :=
  if (cs.dropWhile isDigitChar).head? = some '.' then
    (digitsToNat (cs.takeWhile isDigitChar) : ℚ)
      + (digitsToNat (cs.dropWhile isDigitChar).tail : ℚ)
        / 10 ^ (cs.dropWhile isDigitChar).tail.length
  else (digitsToNat (cs.takeWhile isDigitChar) : ℚ)

/-- Exact value of the matched numeric literal: `parseFloat(match[1])`. -/
def parseDecimal (cs : List Char) : ℚ :=
  if cs.head? = some '-' then -parseUnsigned cs.tail else parseUnsigned cs

/-- The branches of the regex unit alternation
`(milliseconds?|msecs?|ms|seconds?|secs?|s|minutes?|mins?|m|hours?|hrs?|h|days?|d|weeks?|w|years?|yrs?|y)`,
expanded into the finite set of strings it matches (lower case; the `/i`
flag is modelled by lower-casing the candidate token before the test). -/
def unitAliases : List String :=
  ["milliseconds", "millisecond", "msecs", "msec", "ms",
   "seconds", "second", "secs", "sec", "s",
   "minutes", "minute", "mins", "min", "m",
   "hours", "hour", "hrs", "hr", "h",
   "days", "day", "d",
   "weeks", "week", "w",
   "years", "year", "yrs", "yr", "y"]

/-- The `switch (unit)` of `parse`: multiplier per lower-cased unit token,
`none` for the `default` branch (`Unknown unit`). -/
def unitToMult : String → Option ℚ
  | "years" | "year" | "yrs" | "yr" | "y" => some YEAR
  | "weeks" | "week" | "w" => some WEEK
  | "days" | "day" | "d" => some DAY
  | "hours" | "hour" | "hrs" | "hr" | "h" => some HOUR
  | "minutes" | "minute" | "mins" | "min" | "m" => some MINUTE
  | "seconds" | "second" | "secs" | "sec" | "s" => some SECOND
  | "milliseconds" | "millisecond" | "msecs" | "msec" | "ms" => some 1
  | _ => none

/-- The anchored regex
`/^(-?(?:\d+)?\.?\d+) *(…unit alternation…)?$/i` applied to the trimmed
input, returning the two capture groups (numeric literal, unit token; the
unit token is `[]` when the optional group did not participate).  The
alphabets of the three segments are disjoint (numeric characters, spaces,
alphabetic alias characters), so the decomposition of a matching input is
the maximal numeric-class prefix, then spaces, then the token. -/
def matchTimePattern (cs : List Char) : Option (List Char × List Char) :=
  if numGrammar (cs.takeWhile numClass) = true then
    if (cs.dropWhile numClass).dropWhile spaceChar = [] then
      some (cs.takeWhile numClass, [])
    else if String.mk (((cs.dropWhile numClass).dropWhile spaceChar).map toLowerChar)
        ∈ unitAliases then
      some (cs.takeWhile numClass, (cs.dropWhile numClass).dropWhile spaceChar)
    else none
  else none

/-- `(match[2] || 'ms').toLowerCase()`. -/
def resolveUnit (unitStr : List Char) : String :=
  if unitStr = [] then "ms" else String.mk (unitStr.map toLowerChar)

/-- The tail of `parse` after the regex match: numeric conversion and the
unit `switch` (the `ms` multiplier `1` makes `num * 1` the code's `num`). -/
def parseMatched (value : String) : Option (List Char × List Char) → Except ParseError ℚ
  | none => Except.error (ParseError.invalidFormat value)
  | some (numStr, unitStr) =>
    match unitToMult (resolveUnit unitStr) with
    | some mult => Except.ok (parseDecimal numStr * mult)
    | none => Except.error (ParseError.unknownUnit (resolveUnit unitStr))

/-- `export function parse(value, options = {})`: empty check, length
check against `options.maxLength ?? 100`, regex match on the trimmed
input, then numeric conversion and unit resolution. -/
def parse (value : String) (options : ParseOptions := {}) : Except ParseError ℚ :=
  if value.length = 0 then Except.error ParseError.emptyInput
  else if (value.length : ℤ) > options.maxLength.getD 100 then
    Except.error (ParseError.tooLong (options.maxLength.getD 100))
  else parseMatched value (matchTimePattern (trimChars value.data))

/-- `Math.abs`. -/
def absQ (q : ℚ) : ℚ := if q < 0 then -q else q

/-- `Math.round`: round half toward positive infinity. -/
def jsRound (q : ℚ) : ℤ := (q + 1 / 2).floor

/-- Rendering of an integer by string concatenation (`Math.round(...) + 'd'`);
JavaScript prints integral doubles of this magnitude in plain decimal. -/
def intToString (n : ℤ) : String := toString n

/-- Least power of ten clearing the denominator, for decimal printing. -/
def decimalExponent (q : ℚ) : Option ℕ :=
  (List.range 13).find? (fun k => (q * 10 ^ k).den = 1)

/-- Rendering of a number by string concatenation (`ms + 'ms'`): JavaScript
prints the shortest decimal expansion, which for the exactly-representable
values arising here is the plain decimal form (integral values print with
no decimal point, fractional ones with a minimal fraction part). -/
def jsNumToString (q : ℚ) : String :=
  if q.den = 1 then toString q.num
  else
    match decimalExponent q with
    | some k =>
      (if q.num < 0 then "-" else "")
        ++ toString ((q * 10 ^ k).num.natAbs / 10 ^ k)
        ++ "."
        ++ String.mk (List.replicate
              (k - (toString ((q * 10 ^ k).num.natAbs % 10 ^ k)).length) '0')
        ++ toString ((q * 10 ^ k).num.natAbs % 10 ^ k)
    | none => toString q.num ++ "/" ++ toString q.den

/-- `formatShort`: threshold chain day, hour, minute, second, else raw
milliseconds. -/
def formatShort (ms : ℚ) : String :=
  if absQ ms ≥ DAY then intToString (jsRound (ms / DAY)) ++ "d"
  else if absQ ms ≥ HOUR then intToString (jsRound (ms / HOUR)) ++ "h"
  else if absQ ms ≥ MINUTE then intToString (jsRound (ms / MINUTE)) ++ "m"
  else if absQ ms ≥ SECOND then intToString (jsRound (ms / SECOND)) ++ "s"
  else jsNumToString ms ++ "ms"

/-- `plural`: rounded quotient, space, name, `s` when `absMs >= unit * 1.5`. -/
def plural (ms absMs unit : ℚ) (name : String) : String :=
  intToString (jsRound (ms / unit)) ++ " " ++ name
    ++ (if absMs ≥ unit * (1.5 : ℚ) then "s" else "")

/-- `formatLong`: threshold chain day, hour, minute, second, else raw
milliseconds with a literal " ms". -/
def formatLong (ms : ℚ) : String :=
  if absQ ms ≥ DAY then plural ms (absQ ms) DAY "day"
  else if absQ ms ≥ HOUR then plural ms (absQ ms) HOUR "hour"
  else if absQ ms ≥ MINUTE then plural ms (absQ ms) MINUTE "minute"
  else if absQ ms ≥ SECOND then plural ms (absQ ms) SECOND "second"
  else jsNumToString ms ++ " ms"

/-- `export function format(ms, options = {})`; every rational is finite,
so the `NotFinite` guard never fires in this model. -/
def format (ms : ℚ) (options : FormatOptions := {}) : String :=
  if options.long then formatLong ms else formatShort ms

/-- A runtime value handed to the combined entry point: a string, a
number, or anything else (`null`, `undefined`, objects, ...). -/
inductive MsValue where
  | str (s : String)
  | num (q : ℚ)
  | other

/-- Failures of the combined entry point: a propagated parse failure or
the `Value must be a string or number` rejection. -/
inductive MsError where
  | parseFailure (e : ParseError)
  | unsupportedInputType
deriving DecidableEq

/-- The single options object of `ms`, passed on as `ParseOptions` or
`FormatOptions` depending on the branch taken. -/
structure MsOptions where
  maxLength : Option ℤ := none
  long : Bool := false

/-- The parse-relevant projection of the options object. -/
def MsOptions.toParseOptions (o : MsOptions) : ParseOptions := ⟨o.maxLength⟩

/-- The format-relevant projection of the options object. -/
def MsOptions.toFormatOptions (o : MsOptions) : FormatOptions := ⟨o.long⟩

/-- `function ms(value, options)`: type dispatch to `parse` on strings,
`format` on numbers, error otherwise. -/
def ms : MsValue → MsOptions → Except MsError (ℚ ⊕ String)
  | MsValue.str s, o =>
    ((parse s o.toParseOptions).map Sum.inl).mapError MsError.parseFailure
  | MsValue.num q, o => Except.ok (Sum.inr (format q o.toFormatOptions))
  | MsValue.other, _ => Except.error MsError.unsupportedInputType

end MsParser

namespace MsParser

/-! ### Generic list helpers -/

theorem dropWhile_eq_self_of_head (p : Char → Bool) (l : List Char)
    (h : ∀ c, l.head? = some c → p c = false) : l.dropWhile p = l := by
  cases l with
  | nil => rfl
  | cons c t =>
    exact List.dropWhile_cons_of_neg (by simp [h c rfl])

theorem takeWhile_append_of_all (p : Char → Bool) :
    ∀ (l1 l2 : List Char), (∀ a ∈ l1, p a = true) →
      (∀ a, l2.head? = some a → p a = false) →
      (l1 ++ l2).takeWhile p = l1 ∧ (l1 ++ l2).dropWhile p = l2
  | [], l2, _, h2 => by
    cases l2 with
    | nil => exact ⟨rfl, rfl⟩
    | cons c t =>
      have hc := h2 c rfl
      exact ⟨List.takeWhile_cons_of_neg (by simp [hc]),
             List.dropWhile_cons_of_neg (by simp [hc])⟩
  | a :: l1, l2, h1, h2 => by
    have ha : p a = true := h1 a (List.mem_cons_self a l1)
    have ih := takeWhile_append_of_all p l1 l2
      (fun x hx => h1 x (List.mem_cons_of_mem a hx)) h2
    refine ⟨?_, ?_⟩
    · rw [List.cons_append, List.takeWhile_cons_of_pos ha, ih.1]
    · rw [List.cons_append, List.dropWhile_cons_of_pos ha, ih.2]

theorem mem_of_head?_eq (l : List Char) (a : Char) (h : l.head? = some a) : a ∈ l := by
  cases l with
  | nil => exact absurd h (by simp)
  | cons c t =>
    have : c = a := by simpa using h
    exact this ▸ List.mem_cons_self c t

theorem trimChars_eq_self (cs : List Char)
    (h1 : ∀ c, cs.head? = some c → jsWhitespaceChar c = false)
    (h2 : ∀ c, cs.reverse.head? = some c → jsWhitespaceChar c = false) :
    trimChars cs = cs := by
  unfold trimChars
  rw [dropWhile_eq_self_of_head _ _ h1, dropWhile_eq_self_of_head _ _ h2,
    List.reverse_reverse]

/-! ### Character class facts -/

theorem char_bne_of_toNat_ne {c d : Char} (h : c.toNat ≠ d.toNat) : (c == d) = false :=
  beq_eq_false_iff_ne.mpr (fun e => h (by rw [e]))

theorem numClass_cases {c : Char} (h : numClass c = true) :
    (48 ≤ c.toNat ∧ c.toNat ≤ 57) ∨ c = '.' ∨ c = '-' := by
  have := h
  simp only [numClass, isDigitChar, Bool.or_eq_true, decide_eq_true_eq,
    beq_iff_eq] at this
  tauto

theorem numClass_toNat_range {c : Char} (h : numClass c = true) :
    45 ≤ c.toNat ∧ c.toNat ≤ 57 := by
  rcases numClass_cases h with h1 | h1 | h1
  · omega
  · subst h1; decide
  · subst h1; decide

theorem numClass_not_ws {c : Char} (h : numClass c = true) :
    jsWhitespaceChar c = false := by
  have hr := numClass_toNat_range h
  have e1 : (' ' : Char).toNat = 32 := rfl
  have e2 : ('\t' : Char).toNat = 9 := rfl
  have e3 : ('\n' : Char).toNat = 10 := rfl
  have e4 : ('\r' : Char).toNat = 13 := rfl
  have e5 : ('\x0b' : Char).toNat = 11 := rfl
  have e6 : ('\x0c' : Char).toNat = 12 := rfl
  simp only [jsWhitespaceChar, Bool.or_eq_false_iff]
  refine ⟨⟨⟨⟨⟨?_, ?_⟩, ?_⟩, ?_⟩, ?_⟩, ?_⟩ <;>
    exact char_bne_of_toNat_ne (by omega)

theorem alphaLike_toNat_range {c : Char}
    (h : 97 ≤ (toLowerChar c).toNat ∧ (toLowerChar c).toNat ≤ 122) :
    (65 ≤ c.toNat ∧ c.toNat ≤ 90) ∨ (97 ≤ c.toNat ∧ c.toNat ≤ 122) := by
  unfold toLowerChar at h
  by_cases hc : 65 ≤ c.toNat ∧ c.toNat ≤ 90
  · exact Or.inl hc
  · rw [if_neg hc] at h
    exact Or.inr h

theorem alphaLike_not_numClass {c : Char}
    (h : 97 ≤ (toLowerChar c).toNat ∧ (toLowerChar c).toNat ≤ 122) :
    numClass c = false := by
  have hr := alphaLike_toNat_range h
  have e1 : ('.' : Char).toNat = 46 := rfl
  have e2 : ('-' : Char).toNat = 45 := rfl
  simp only [numClass, isDigitChar, Bool.or_eq_false_iff, decide_eq_false_iff_not]
  refine ⟨⟨?_, ?_⟩, ?_⟩
  · omega
  · exact char_bne_of_toNat_ne (by omega)
  · exact char_bne_of_toNat_ne (by omega)

theorem alphaLike_not_space {c : Char}
    (h : 97 ≤ (toLowerChar c).toNat ∧ (toLowerChar c).toNat ≤ 122) :
    spaceChar c = false := by
  have hr := alphaLike_toNat_range h
  have e1 : (' ' : Char).toNat = 32 := rfl
  exact char_bne_of_toNat_ne (by omega)

theorem alphaLike_not_ws {c : Char}
    (h : 97 ≤ (toLowerChar c).toNat ∧ (toLowerChar c).toNat ≤ 122) :
    jsWhitespaceChar c = false := by
  have hr := alphaLike_toNat_range h
  have e1 : (' ' : Char).toNat = 32 := rfl
  have e2 : ('\t' : Char).toNat = 9 := rfl
  have e3 : ('\n' : Char).toNat = 10 := rfl
  have e4 : ('\r' : Char).toNat = 13 := rfl
  have e5 : ('\x0b' : Char).toNat = 11 := rfl
  have e6 : ('\x0c' : Char).toNat = 12 := rfl
  simp only [jsWhitespaceChar, Bool.or_eq_false_iff]
  refine ⟨⟨⟨⟨⟨?_, ?_⟩, ?_⟩, ?_⟩, ?_⟩, ?_⟩ <;>
    exact char_bne_of_toNat_ne (by omega)

/-- Every character of every string in the alias alternation is a lower
case ASCII letter. -/
theorem unitAliases_chars :
    ∀ s ∈ unitAliases, ∀ c ∈ s.data, 97 ≤ c.toNat ∧ c.toNat ≤ 122 := by decide

/-- Every branch of the regex alternation resolves in the unit `switch`. -/
theorem unitAliases_resolve :
    ∀ s ∈ unitAliases, (unitToMult s).isSome = true := by decide

end MsParser

namespace MsParser

/-! ### Structure of the numeric grammar -/

theorem numBody_mem {cs : List Char} (h : numBody cs = true) :
    ∀ c ∈ cs, numClass c = true := by
  intro c hc
  rw [← List.takeWhile_append_dropWhile isDigitChar cs] at hc
  rcases List.mem_append.mp hc with h1 | h2
  · have := List.mem_takeWhile_imp h1
    simp [numClass, this]
  · unfold numBody at h
    by_cases he : (cs.dropWhile isDigitChar).isEmpty = true
    · rw [List.isEmpty_iff] at he
      rw [he] at h2
      exact absurd h2 (List.not_mem_nil c)
    · rw [if_neg he] at h
      by_cases hdot : (cs.dropWhile isDigitChar).head? = some '.'
      · rw [if_pos hdot] at h
        cases hrest : cs.dropWhile isDigitChar with
        | nil => rw [hrest] at h2; exact absurd h2 (List.not_mem_nil c)
        | cons d tl =>
          have hd : d = '.' := by rw [hrest] at hdot; simpa using hdot
          rw [hrest] at h2
          rcases List.mem_cons.mp h2 with h3 | h3
          · subst h3; subst hd; decide
          · rw [hrest] at h
            simp only [List.tail_cons, Bool.and_eq_true, List.all_eq_true] at h
            have := h.2 c h3
            simp [numClass, this]
      · rw [if_neg hdot] at h
        exact absurd h (by simp)

theorem numBody_ne_nil (h : numBody [] = true) : False := by
  simp [numBody] at h

theorem numGrammar_mem {cs : List Char} (h : numGrammar cs = true) :
    ∀ c ∈ cs, numClass c = true := by
  intro c hc
  unfold numGrammar at h
  by_cases hneg : cs.head? = some '-'
  · rw [if_pos hneg] at h
    cases cs with
    | nil => exact absurd hc (List.not_mem_nil c)
    | cons a tl =>
      have ha : a = '-' := by simpa using hneg
      rcases List.mem_cons.mp hc with h1 | h1
      · subst h1; subst ha; decide
      · exact numBody_mem (by simpa using h) c h1
  · rw [if_neg hneg] at h
    exact numBody_mem h c hc

theorem numGrammar_ne_nil {cs : List Char} (h : numGrammar cs = true) : cs ≠ [] := by
  intro he
  subst he
  simp only [numGrammar] at h
  rw [if_neg (by simp)] at h
  exact numBody_ne_nil h

/-! ### Alias token facts -/

theorem alias_mem_alphaLike {tok : List Char}
    (hmem : String.mk (tok.map toLowerChar) ∈ unitAliases) :
    ∀ c ∈ tok, 97 ≤ (toLowerChar c).toNat ∧ (toLowerChar c).toNat ≤ 122 := by
  intro c hc
  have h1 : toLowerChar c ∈ (String.mk (tok.map toLowerChar)).data :=
    List.mem_map_of_mem toLowerChar hc
  exact unitAliases_chars _ hmem _ h1

theorem alias_mem_ne_nil {tok : List Char}
    (hmem : String.mk (tok.map toLowerChar) ∈ unitAliases) : tok ≠ [] := by
  intro he
  subst he
  exact absurd hmem (by decide)

/-! ### Behaviour of the pattern match on well-formed inputs -/

theorem matchTimePattern_with_unit (numStr sp tok : List Char)
    (hg : numGrammar numStr = true)
    (hsp : ∀ c ∈ sp, spaceChar c = true)
    (hmem : String.mk (tok.map toLowerChar) ∈ unitAliases) :
    matchTimePattern (numStr ++ sp ++ tok) = some (numStr, tok) := by
  have halpha := alias_mem_alphaLike hmem
  have hne := alias_mem_ne_nil hmem
  have hnum : ∀ c ∈ numStr, numClass c = true := numGrammar_mem hg
  have hsplit : (numStr ++ (sp ++ tok)).takeWhile numClass = numStr ∧
      (numStr ++ (sp ++ tok)).dropWhile numClass = sp ++ tok := by
    refine takeWhile_append_of_all numClass numStr (sp ++ tok) hnum ?_
    intro a ha
    cases sp with
    | nil =>
      have : a ∈ tok := mem_of_head?_eq tok a (by simpa using ha)
      exact alphaLike_not_numClass (halpha a this)
    | cons s tl =>
      have hs : s = a := by simpa using ha
      have hsc : spaceChar a = true := hs ▸ hsp s (List.mem_cons_self s tl)
      have he : a = ' ' := beq_iff_eq.mp hsc
      subst he
      decide
  have hdropSp : (sp ++ tok).dropWhile spaceChar = tok := by
    refine (takeWhile_append_of_all spaceChar sp tok hsp ?_).2
    intro a ha
    have : a ∈ tok := mem_of_head?_eq tok a ha
    exact alphaLike_not_space (halpha a this)
  rw [List.append_assoc]
  unfold matchTimePattern
  rw [hsplit.1, hsplit.2, hdropSp, if_pos hg, if_neg hne, if_pos hmem]

theorem matchTimePattern_no_unit (numStr : List Char)
    (hg : numGrammar numStr = true) :
    matchTimePattern numStr = some (numStr, []) := by
  have hnum : ∀ c ∈ numStr, numClass c = true := numGrammar_mem hg
  have hsplit : numStr.takeWhile numClass = numStr ∧
      numStr.dropWhile numClass = [] := by
    have := takeWhile_append_of_all numClass numStr [] hnum (by simp)
    rwa [List.append_nil] at this
  unfold matchTimePattern
  rw [hsplit.1, hsplit.2, if_pos hg]
  simp

end MsParser

namespace MsParser

/-! ### Staging of `parse` -/

theorem parse_eval (value : String) (o : ParseOptions)
    (h0 : ¬ value.length = 0)
    (h1 : (value.length : ℤ) ≤ o.maxLength.getD 100) :
    parse value o = parseMatched value (matchTimePattern (trimChars value.data)) := by
  unfold parse
  rw [if_neg h0, if_neg (not_lt.mpr h1)]

theorem parseMatched_some_ok (value : String) (numStr unitStr : List Char) (mult : ℚ)
    (h : unitToMult (resolveUnit unitStr) = some mult) :
    parseMatched value (some (numStr, unitStr)) =
      Except.ok (parseDecimal numStr * mult) := by
  have e : parseMatched value (some (numStr, unitStr)) =
      match unitToMult (resolveUnit unitStr) with
      | some mult => Except.ok (parseDecimal numStr * mult)
      | none => Except.error (ParseError.unknownUnit (resolveUnit unitStr)) := rfl
  rw [e, h]

theorem head?_append_left {l1 l2 : List Char} {a : Char}
    (h : (l1 ++ l2).head? = some a) (hne : l1 ≠ []) : l1.head? = some a := by
  cases l1 with
  | nil => exact absurd rfl hne
  | cons x t => simpa using h

theorem trim_grammar_self (numStr : List Char) (hg : numGrammar numStr = true) :
    trimChars numStr = numStr := by
  have hnum := numGrammar_mem hg
  refine trimChars_eq_self numStr ?_ ?_
  · intro c hc
    exact numClass_not_ws (hnum c (mem_of_head?_eq _ c hc))
  · intro c hc
    have : c ∈ numStr := List.mem_reverse.mp (mem_of_head?_eq _ c hc)
    exact numClass_not_ws (hnum c this)

theorem trim_num_unit_self (numStr sp tok : List Char)
    (hg : numGrammar numStr = true)
    (hmem : String.mk (tok.map toLowerChar) ∈ unitAliases) :
    trimChars (numStr ++ sp ++ tok) = numStr ++ sp ++ tok := by
  have hnum := numGrammar_mem hg
  have halpha := alias_mem_alphaLike hmem
  have hne := alias_mem_ne_nil hmem
  refine trimChars_eq_self _ ?_ ?_
  · intro c hc
    have h1 : numStr.head? = some c := by
      rw [List.append_assoc] at hc
      exact head?_append_left hc (numGrammar_ne_nil hg)
    exact numClass_not_ws (hnum c (mem_of_head?_eq _ c h1))
  · intro c hc
    rw [List.reverse_append] at hc
    have h1 : tok.reverse.head? = some c :=
      head?_append_left hc (by simpa using hne)
    have h2 : c ∈ tok := List.mem_reverse.mp (mem_of_head?_eq _ c h1)
    exact alphaLike_not_ws (halpha c h2)

theorem parse_num_sp_unit (numStr sp tok : List Char) (mult : ℚ)
    (hg : numGrammar numStr = true)
    (hsp : ∀ c ∈ sp, spaceChar c = true)
    (hmem : String.mk (tok.map toLowerChar) ∈ unitAliases)
    (hmult : unitToMult (String.mk (tok.map toLowerChar)) = some mult)
    (hlen : (numStr ++ sp ++ tok).length ≤ 100) :
    parse (String.mk (numStr ++ sp ++ tok)) {} =
      Except.ok (parseDecimal numStr * mult) := by
  have hne0 : ¬ (String.mk (numStr ++ sp ++ tok)).length = 0 := by
    show ¬ (numStr ++ sp ++ tok).length = 0
    have : numStr ≠ [] := numGrammar_ne_nil hg
    have h1 : 0 < numStr.length := List.length_pos.mpr this
    simp only [List.length_append]
    omega
  have hle : ((String.mk (numStr ++ sp ++ tok)).length : ℤ) ≤
      ({} : ParseOptions).maxLength.getD 100 := by
    show ((numStr ++ sp ++ tok).length : ℤ) ≤ 100
    exact_mod_cast hlen
  rw [parse_eval _ _ hne0 hle]
  have hdata : (String.mk (numStr ++ sp ++ tok)).data = numStr ++ sp ++ tok := rfl
  rw [hdata, trim_num_unit_self numStr sp tok hg hmem,
    matchTimePattern_with_unit numStr sp tok hg hsp hmem]
  refine parseMatched_some_ok _ _ _ mult ?_
  show unitToMult (resolveUnit tok) = some mult
  unfold resolveUnit
  rw [if_neg (alias_mem_ne_nil hmem)]
  exact hmult

theorem parse_num_only (numStr : List Char) (hg : numGrammar numStr = true)
    (hlen : numStr.length ≤ 100) :
    parse (String.mk numStr) {} = Except.ok (parseDecimal numStr) := by
  have hne0 : ¬ (String.mk numStr).length = 0 := by
    show ¬ numStr.length = 0
    have h1 : 0 < numStr.length := List.length_pos.mpr (numGrammar_ne_nil hg)
    omega
  have hle : ((String.mk numStr).length : ℤ) ≤
      ({} : ParseOptions).maxLength.getD 100 := by
    show ((numStr.length : ℤ)) ≤ 100
    exact_mod_cast hlen
  rw [parse_eval _ _ hne0 hle]
  have hdata : (String.mk numStr).data = numStr := rfl
  rw [hdata, trim_grammar_self numStr hg, matchTimePattern_no_unit numStr hg,
    parseMatched_some_ok _ _ _ 1 (by decide), mul_one]

/-- Claim C1: for every numeric literal admitted by the pattern and every
recognized unit alias (case-insensitive), parsing the literal followed by
optional spacing and the alias yields exactly the literal's value times
the alias's canonical millisecond multiplier (millisecond 1, second 1000,
minute 60000, hour 3600000, day 86400000, week 604800000,
year 31557600000), with no rounding and sign preserved; aliases of one
unit agree, and a string with no unit token defaults to milliseconds. -/
theorem claim_C1_parse_units :
    (∀ (numStr sp tok : List Char) (mult : ℚ),
      numGrammar numStr = true →
      (∀ c ∈ sp, spaceChar c = true) →
      String.mk (tok.map toLowerChar) ∈ unitAliases →
      unitToMult (String.mk (tok.map toLowerChar)) = some mult →
      (numStr ++ sp ++ tok).length ≤ 100 →
      parse (String.mk (numStr ++ sp ++ tok)) {} =
        Except.ok (parseDecimal numStr * mult)) ∧
    (∀ numStr : List Char, numGrammar numStr = true → numStr.length ≤ 100 →
      parse (String.mk numStr) {} = Except.ok (parseDecimal numStr)) ∧
    parse "1hr" {} = Except.ok 3600000 ∧
    parse "1h" {} = Except.ok 3600000 ∧
    parse "2 hours" {} = Except.ok 7200000 ∧
    parse "-1h" {} = Except.ok (-3600000) ∧
    parse "100" {} = Except.ok 100 ∧
    parse "1y" {} = Except.ok 31557600000 ∧
    SECOND = 1000 ∧ MINUTE = 60000 ∧ HOUR = 3600000 ∧ DAY = 86400000 ∧
    WEEK = 604800000 ∧ YEAR = 31557600000 ∧
    unitToMult "hr" = unitToMult "h" ∧ unitToMult "hours" = unitToMult "h" := by
  refine ⟨parse_num_sp_unit, parse_num_only, ?_, ?_, ?_, ?_, ?_, ?_, ?_, ?_, ?_, ?_, ?_, ?_, ?_, ?_⟩
  · decide
  · decide
  · decide
  · decide
  · decide
  · decide
  · decide
  · decide
  · decide
  · decide
  · decide
  · decide
  · decide
  · decide

/-- Witness for C1: the universal part applied at the literal `1`, a
single space absent, and the alias `hr`. -/
theorem claim_C1_witness :
    parse (String.mk (['1'] ++ [' '] ++ ['h', 'r'])) {} =
      Except.ok (parseDecimal ['1'] * 3600000) :=
  claim_C1_parse_units.1 ['1'] [' '] ['h', 'r'] 3600000 (by decide) (by decide)
    (by decide) (by decide) (by decide)

end MsParser


namespace MsParser

/-! ### The formatter -/

theorem absQ_eq_abs (q : ℚ) : absQ q = |q| := by
  unfold absQ
  by_cases h : q < 0
  · rw [if_pos h, abs_of_neg h]
  · rw [if_neg h, abs_of_nonneg (not_lt.mp h)]

theorem formatShort_eq (ms : ℚ) :
    (|ms| ≥ DAY → formatShort ms = intToString (jsRound (ms / DAY)) ++ "d") ∧
    (|ms| < DAY → |ms| ≥ HOUR →
      formatShort ms = intToString (jsRound (ms / HOUR)) ++ "h") ∧
    (|ms| < HOUR → |ms| ≥ MINUTE →
      formatShort ms = intToString (jsRound (ms / MINUTE)) ++ "m") ∧
    (|ms| < MINUTE → |ms| ≥ SECOND →
      formatShort ms = intToString (jsRound (ms / SECOND)) ++ "s") ∧
    (|ms| < SECOND → formatShort ms = jsNumToString ms ++ "ms") := by
  refine ⟨?_, ?_, ?_, ?_, ?_⟩
  · intro h1
    simp only [formatShort, absQ_eq_abs]
    rw [if_pos h1]
  · intro h1 h2
    simp only [formatShort, absQ_eq_abs]
    rw [if_neg (not_le.mpr h1), if_pos h2]
  · intro h1 h2
    have hd : |ms| < DAY := lt_of_lt_of_le h1 (by decide)
    simp only [formatShort, absQ_eq_abs]
    rw [if_neg (not_le.mpr hd), if_neg (not_le.mpr h1), if_pos h2]
  · intro h1 h2
    have hh : |ms| < HOUR := lt_of_lt_of_le h1 (by decide)
    have hd : |ms| < DAY := lt_of_lt_of_le hh (by decide)
    simp only [formatShort, absQ_eq_abs]
    rw [if_neg (not_le.mpr hd), if_neg (not_le.mpr hh), if_neg (not_le.mpr h1),
      if_pos h2]
  · intro h1
    have hm : |ms| < MINUTE := lt_of_lt_of_le h1 (by decide)
    have hh : |ms| < HOUR := lt_of_lt_of_le hm (by decide)
    have hd : |ms| < DAY := lt_of_lt_of_le hh (by decide)
    simp only [formatShort, absQ_eq_abs]
    rw [if_neg (not_le.mpr hd), if_neg (not_le.mpr hh), if_neg (not_le.mpr hm),
      if_neg (not_le.mpr h1)]

theorem formatLong_eq (ms : ℚ) :
    (|ms| ≥ DAY → formatLong ms = intToString (jsRound (ms / DAY)) ++ " " ++ "day"
      ++ (if |ms| ≥ DAY * (1.5 : ℚ) then "s" else "")) ∧
    (|ms| < DAY → |ms| ≥ HOUR →
      formatLong ms = intToString (jsRound (ms / HOUR)) ++ " " ++ "hour"
        ++ (if |ms| ≥ HOUR * (1.5 : ℚ) then "s" else "")) ∧
    (|ms| < HOUR → |ms| ≥ MINUTE →
      formatLong ms = intToString (jsRound (ms / MINUTE)) ++ " " ++ "minute"
        ++ (if |ms| ≥ MINUTE * (1.5 : ℚ) then "s" else "")) ∧
    (|ms| < MINUTE → |ms| ≥ SECOND →
      formatLong ms = intToString (jsRound (ms / SECOND)) ++ " " ++ "second"
        ++ (if |ms| ≥ SECOND * (1.5 : ℚ) then "s" else "")) ∧
    (|ms| < SECOND → formatLong ms = jsNumToString ms ++ " ms") := by
  refine ⟨?_, ?_, ?_, ?_, ?_⟩
  · intro h1
    simp only [formatLong, plural, absQ_eq_abs]
    rw [if_pos h1]
  · intro h1 h2
    simp only [formatLong, plural, absQ_eq_abs]
    rw [if_neg (not_le.mpr h1), if_pos h2]
  · intro h1 h2
    have hd : |ms| < DAY := lt_of_lt_of_le h1 (by decide)
    simp only [formatLong, plural, absQ_eq_abs]
    rw [if_neg (not_le.mpr hd), if_neg (not_le.mpr h1), if_pos h2]
  · intro h1 h2
    have hh : |ms| < HOUR := lt_of_lt_of_le h1 (by decide)
    have hd : |ms| < DAY := lt_of_lt_of_le hh (by decide)
    simp only [formatLong, plural, absQ_eq_abs]
    rw [if_neg (not_le.mpr hd), if_neg (not_le.mpr hh), if_neg (not_le.mpr h1),
      if_pos h2]
  · intro h1
    have hm : |ms| < MINUTE := lt_of_lt_of_le h1 (by decide)
    have hh : |ms| < HOUR := lt_of_lt_of_le hm (by decide)
    have hd : |ms| < DAY := lt_of_lt_of_le hh (by decide)
    simp only [formatLong, absQ_eq_abs]
    rw [if_neg (not_le.mpr hd), if_neg (not_le.mpr hh), if_neg (not_le.mpr hm),
      if_neg (not_le.mpr h1)]

/-- Claim C2: `format` selects the output unit by testing the absolute
value against the thresholds day, hour, minute, second in descending
order, taking the first met, and falls back to milliseconds otherwise
(so a week or year unit is never produced); the displayed number is the
rounded quotient of the signed input by the selected multiplier, and the
sign survives into the output, e.g. `format(-3600000) = "-1h"`. -/
theorem claim_C2_unit_selection :
    (∀ ms : ℚ,
      (|ms| ≥ DAY → formatShort ms = intToString (jsRound (ms / DAY)) ++ "d") ∧
      (|ms| < DAY → |ms| ≥ HOUR →
        formatShort ms = intToString (jsRound (ms / HOUR)) ++ "h") ∧
      (|ms| < HOUR → |ms| ≥ MINUTE →
        formatShort ms = intToString (jsRound (ms / MINUTE)) ++ "m") ∧
      (|ms| < MINUTE → |ms| ≥ SECOND →
        formatShort ms = intToString (jsRound (ms / SECOND)) ++ "s") ∧
      (|ms| < SECOND → formatShort ms = jsNumToString ms ++ "ms") ∧
      (|ms| ≥ DAY → formatLong ms = intToString (jsRound (ms / DAY)) ++ " " ++ "day"
        ++ (if |ms| ≥ DAY * (1.5 : ℚ) then "s" else "")) ∧
      (|ms| < DAY → |ms| ≥ HOUR →
        formatLong ms = intToString (jsRound (ms / HOUR)) ++ " " ++ "hour"
          ++ (if |ms| ≥ HOUR * (1.5 : ℚ) then "s" else "")) ∧
      (|ms| < HOUR → |ms| ≥ MINUTE →
        formatLong ms = intToString (jsRound (ms / MINUTE)) ++ " " ++ "minute"
          ++ (if |ms| ≥ MINUTE * (1.5 : ℚ) then "s" else "")) ∧
      (|ms| < MINUTE → |ms| ≥ SECOND →
        formatLong ms = intToString (jsRound (ms / SECOND)) ++ " " ++ "second"
          ++ (if |ms| ≥ SECOND * (1.5 : ℚ) then "s" else "")) ∧
      (|ms| < SECOND → formatLong ms = jsNumToString ms ++ " ms")) ∧
    format (-3600000) {} = "-1h" ∧
    format (-3600000) {long := true} = "-1 hour" ∧
    format (-1000) {} = "-1s" ∧
    format (-60000) {long := true} = "-1 minute" ∧
    format 999999999999 {} = "11574d" := by
  refine ⟨?_, by decide, by decide, by decide, by decide, by decide⟩
  intro ms
  have hs := formatShort_eq ms
  have hl := formatLong_eq ms
  exact ⟨hs.1, hs.2.1, hs.2.2.1, hs.2.2.2.1, hs.2.2.2.2, hl.1, hl.2.1, hl.2.2.1,
    hl.2.2.2.1, hl.2.2.2.2⟩

/-- Witness for C2: the hour branches of the characterization applied at
`ms = -3600000`, whose absolute value lies between an hour and a day. -/
theorem claim_C2_witness :
    formatShort (-3600000) = intToString (jsRound ((-3600000 : ℚ) / HOUR)) ++ "h" ∧
    formatLong (-3600000) = intToString (jsRound ((-3600000 : ℚ) / HOUR)) ++ " " ++ "hour"
      ++ (if |(-3600000 : ℚ)| ≥ HOUR * (1.5 : ℚ) then "s" else "") :=
  ⟨((claim_C2_unit_selection.1 (-3600000)).2.1 (by decide) (by decide)),
   ((claim_C2_unit_selection.1 (-3600000)).2.2.2.2.2.2.1 (by decide) (by decide))⟩

/-- Counterexample to C3: in the millisecond range the code renders the
raw value (`ms + 'ms'`), with no rounding: the fractional input `0.5`
renders as `"0.5ms"` (and `"0.5 ms"` in long format), not as the rounded
value `"1ms"` (or `"0ms"`) the claim requires. -/
theorem claim_C3_counterexample :
    format ((1 : ℚ) / 2) {} = "0.5ms" ∧
    intToString (jsRound ((1 : ℚ) / 2)) ++ "ms" = "1ms" ∧
    format ((1 : ℚ) / 2) {} ≠ "1ms" ∧
    format ((1 : ℚ) / 2) {} ≠ "0ms" ∧
    format ((1 : ℚ) / 2) {long := true} = "0.5 ms" ∧
    format ((1 : ℚ) / 2) {long := true} ≠ "1 ms" ∧
    format ((1 : ℚ) / 2) {long := true} ≠ "0 ms" := by
  refine ⟨by decide, by decide, by decide, by decide, by decide, by decide, by decide⟩

/-- Amended C3: for every `ms` with `|ms| < 1000` the short format is the
raw (unrounded) value directly concatenated with `"ms"`, and the long
format is the raw value, a space, and the literal `"ms"` (never a
pluralized word); integral inputs print as integers. -/
theorem claim_C3_ms_range :
    (∀ ms : ℚ, |ms| < SECOND →
      format ms {} = jsNumToString ms ++ "ms" ∧
      format ms {long := true} = jsNumToString ms ++ " ms") ∧
    format 100 {} = "100ms" ∧
    format 100 {long := true} = "100 ms" ∧
    format 0 {} = "0ms" ∧
    format ((1 : ℚ) / 2) {} = "0.5ms" := by
  refine ⟨?_, by decide, by decide, by decide, by decide⟩
  intro ms h1
  exact ⟨(formatShort_eq ms).2.2.2.2 h1, (formatLong_eq ms).2.2.2.2 h1⟩

/-- Witness for the amended C3, at the fractional input `0.5`. -/
theorem claim_C3_witness :
    format ((1 : ℚ) / 2) {} = jsNumToString ((1 : ℚ) / 2) ++ "ms" ∧
    format ((1 : ℚ) / 2) {long := true} = jsNumToString ((1 : ℚ) / 2) ++ " ms" :=
  claim_C3_ms_range.1 ((1 : ℚ) / 2) (by decide)

/-- Claim C6: in long format the unit name is pluralized with a trailing
`s` exactly when the absolute value of the input is at least 1.5 times
the selected multiplier, decided on the pre-rounding magnitude ratio:
`1.4999` minutes stays singular while exactly `1.5` minutes is already
plural (and rounds up to 2). -/
theorem claim_C6_plural_boundary :
    (∀ ms : ℚ,
      (|ms| ≥ DAY → formatLong ms = intToString (jsRound (ms / DAY)) ++ " " ++ "day"
        ++ (if |ms| ≥ (1.5 : ℚ) * DAY then "s" else "")) ∧
      (|ms| < DAY → |ms| ≥ HOUR →
        formatLong ms = intToString (jsRound (ms / HOUR)) ++ " " ++ "hour"
          ++ (if |ms| ≥ (1.5 : ℚ) * HOUR then "s" else "")) ∧
      (|ms| < HOUR → |ms| ≥ MINUTE →
        formatLong ms = intToString (jsRound (ms / MINUTE)) ++ " " ++ "minute"
          ++ (if |ms| ≥ (1.5 : ℚ) * MINUTE then "s" else "")) ∧
      (|ms| < MINUTE → |ms| ≥ SECOND →
        formatLong ms = intToString (jsRound (ms / SECOND)) ++ " " ++ "second"
          ++ (if |ms| ≥ (1.5 : ℚ) * SECOND then "s" else ""))) ∧
    format ((1.4999 : ℚ) * 60000) {long := true} = "1 minute" ∧
    format ((1.5 : ℚ) * 60000) {long := true} = "2 minutes" ∧
    format 120000 {long := true} = "2 minutes" ∧
    format 60000 {long := true} = "1 minute" ∧
    format (-90000) {long := true} = "-1 minutes" := by
  have hc : ∀ u : ℚ, u * (1.5 : ℚ) = (1.5 : ℚ) * u := fun u => mul_comm u _
  refine ⟨?_, by decide, by decide, by decide, by decide, by decide⟩
  intro ms
  have h := formatLong_eq ms
  refine ⟨?_, ?_, ?_, ?_⟩
  · intro h1
    rw [h.1 h1, hc]
  · intro h1 h2
    rw [h.2.1 h1 h2, hc]
  · intro h1 h2
    rw [h.2.2.1 h1 h2, hc]
  · intro h1 h2
    rw [h.2.2.2.1 h1 h2, hc]

/-- Witness for C6: the minute branch applied at the two boundary inputs
`1.4999` minutes (singular) and `1.5` minutes (plural). -/
theorem claim_C6_witness :
    formatLong ((1.4999 : ℚ) * 60000) =
      intToString (jsRound ((1.4999 : ℚ) * 60000 / MINUTE)) ++ " " ++ "minute"
        ++ (if |(1.4999 : ℚ) * 60000| ≥ (1.5 : ℚ) * MINUTE then "s" else "") ∧
    formatLong ((1.5 : ℚ) * 60000) =
      intToString (jsRound ((1.5 : ℚ) * 60000 / MINUTE)) ++ " " ++ "minute"
        ++ (if |(1.5 : ℚ) * 60000| ≥ (1.5 : ℚ) * MINUTE then "s" else "") :=
  ⟨(claim_C6_plural_boundary.1 ((1.4999 : ℚ) * 60000)).2.2.1 (by decide) (by decide),
   (claim_C6_plural_boundary.1 ((1.5 : ℚ) * 60000)).2.2.1 (by decide) (by decide)⟩

end MsParser

namespace MsParser

/-- Claim C7: round-tripping each canonical multiplier through `format`
then `parse` is exact for the multipliers that divide evenly into the
formatter's output units (1, 1000, 60000, 3600000, 86400000, 604800000),
while the year multiplier formats as `"365d"` (365.25 days rounded) and
re-parses to a value within half of the selected output unit (a day). -/
theorem claim_C7_roundtrip :
    parse (format 1 {}) {} = Except.ok 1 ∧
    parse (format 1000 {}) {} = Except.ok 1000 ∧
    parse (format 60000 {}) {} = Except.ok 60000 ∧
    parse (format 3600000 {}) {} = Except.ok 3600000 ∧
    parse (format 86400000 {}) {} = Except.ok 86400000 ∧
    parse (format 604800000 {}) {} = Except.ok 604800000 ∧
    format (31557600000 : ℚ) {} = "365d" ∧
    parse (format 31557600000 {}) {} = Except.ok 31536000000 ∧
    |(31557600000 : ℚ) - 31536000000| ≤ DAY / 2 := by
  refine ⟨by decide, by decide, by decide, by decide, by decide, by decide,
    by decide, by decide, by decide⟩

/-- Claim C10: the output unit is selected on the pre-rounded magnitude
while the displayed number is rounded afterwards, so inputs just below a
unit boundary can display the full size of the next unit without being
promoted to it: 3599999 ms (just under an hour) renders as `"60m"`,
86399999 ms (just under a day) as `"24h"`, and 59999 ms (just under a
minute) as `"60s"`. -/
theorem claim_C10_no_repromotion :
    (3599999 : ℚ) < HOUR ∧ format 3599999 {} = "60m" ∧
    (86399999 : ℚ) < DAY ∧ format 86399999 {} = "24h" ∧
    (59999 : ℚ) < MINUTE ∧ format 59999 {} = "60s" := by
  refine ⟨by decide, by decide, by decide, by decide, by decide, by decide⟩

/-! ### Error taxonomy facts -/

/-- Recognizer for the `Unknown unit` failure. -/
def isUnknownUnitError : Except ParseError ℚ → Bool
  | Except.error (ParseError.unknownUnit _) => true
  | _ => false

/-- Whatever `matchTimePattern` accepts resolves in the unit `switch`:
the token is either absent (then the default `"ms"` applies) or a member
of the alias alternation, all of whose elements the `switch` knows. -/
theorem matchTimePattern_resolves {cs numStr unitStr : List Char}
    (h : matchTimePattern cs = some (numStr, unitStr)) :
    ∃ m, unitToMult (resolveUnit unitStr) = some m := by
  unfold matchTimePattern at h
  by_cases h1 : numGrammar (cs.takeWhile numClass) = true
  · rw [if_pos h1] at h
    by_cases h2 : (cs.dropWhile numClass).dropWhile spaceChar = []
    · rw [if_pos h2] at h
      have hu : unitStr = [] := by
        have := (Option.some.injEq _ _).mp h
        exact (Prod.mk.injEq _ _ _ _ ▸ this).2.symm ▸ rfl
      subst hu
      exact ⟨1, by decide⟩
    · rw [if_neg h2] at h
      by_cases h3 : String.mk (((cs.dropWhile numClass).dropWhile spaceChar).map
          toLowerChar) ∈ unitAliases
      · rw [if_pos h3] at h
        have hinj := (Option.some.injEq _ _).mp h
        have hu : unitStr = (cs.dropWhile numClass).dropWhile spaceChar :=
          ((Prod.mk.injEq _ _ _ _).mp hinj).2.symm
        have hne : unitStr ≠ [] := by
          rw [hu]
          exact h2
        have hmem : String.mk (unitStr.map toLowerChar) ∈ unitAliases := by
          rw [hu]
          exact h3
        have hres : resolveUnit unitStr = String.mk (unitStr.map toLowerChar) := by
          unfold resolveUnit
          rw [if_neg hne]
        rw [hres]
        have := unitAliases_resolve _ hmem
        exact Option.isSome_iff_exists.mp this
      · rw [if_neg h3] at h
        exact absurd h (by simp)
  · rw [if_neg h1] at h
    exact absurd h (by simp)

end MsParser

namespace MsParser

/-- Counterexample to C4: a valid number followed by a space and the
alphabetic non-alias token `foo` is rejected by the overall pattern
(whose unit group admits only the known alias alternation, not arbitrary
alphabetic tokens), so `parse` fails with `InvalidFormat`, not with the
`UnknownUnit` error the claim requires. -/
theorem claim_C4_counterexample :
    parse "5 foo" {} = Except.error (ParseError.invalidFormat "5 foo") ∧
    parse "5 foo" {} ≠ Except.error (ParseError.unknownUnit "foo") ∧
    isUnknownUnitError (parse "5 foo" {}) = false := by
  refine ⟨by decide, by decide, by decide⟩

/-- Amended C4: the accepted pattern admits only the recognized alias
tokens, so an unrecognized alphabetic unit token fails the overall match
and `parse` reports `InvalidFormat`; the `Unknown unit` branch of the
unit switch is unreachable on every input and option. -/
theorem claim_C4_unknown_unit_unreachable :
    (∀ (value : String) (o : ParseOptions),
      isUnknownUnitError (parse value o) = false) ∧
    parse "5 foo" {} = Except.error (ParseError.invalidFormat "5 foo") ∧
    parse "1x" {} = Except.error (ParseError.invalidFormat "1x") := by
  refine ⟨?_, by decide, by decide⟩
  intro value o
  unfold parse
  by_cases h0 : value.length = 0
  · rw [if_pos h0]
    rfl
  · rw [if_neg h0]
    by_cases h1 : (value.length : ℤ) > o.maxLength.getD 100
    · rw [if_pos h1]
      rfl
    · rw [if_neg h1]
      cases hm : matchTimePattern (trimChars value.data) with
      | none => rfl
      | some p =>
        obtain ⟨numStr, unitStr⟩ := p
        obtain ⟨m, hm2⟩ := matchTimePattern_resolves hm
        rw [parseMatched_some_ok value numStr unitStr m hm2]
        rfl

/-- Counterexample to C5: the pattern separates number and unit with
`" *"` (any run of spaces), so `"1  h"` with two spaces parses
successfully instead of failing with `InvalidFormat` as the claim
requires. -/
theorem claim_C5_counterexample :
    parse "1  h" {} = Except.ok 3600000 ∧
    parse "1  h" {} ≠ Except.error (ParseError.invalidFormat "1  h") := by
  refine ⟨by decide, by decide⟩

/-- Amended C5: after trimming, `parse` accepts exactly an optional
leading minus, a numeric literal (with or without leading digit), any
run of spaces (zero or more, not just one), and an optional recognized
unit token, anchored at both ends; inputs the pattern rejects fail with
`InvalidFormat` carrying the original untrimmed input. -/
theorem claim_C5_grammar :
    (∀ (numStr sp tok : List Char) (mult : ℚ),
      numGrammar numStr = true →
      (∀ c ∈ sp, spaceChar c = true) →
      String.mk (tok.map toLowerChar) ∈ unitAliases →
      unitToMult (String.mk (tok.map toLowerChar)) = some mult →
      (numStr ++ sp ++ tok).length ≤ 100 →
      parse (String.mk (numStr ++ sp ++ tok)) {} =
        Except.ok (parseDecimal numStr * mult)) ∧
    (∀ (value : String) (o : ParseOptions), ¬ value.length = 0 →
      (value.length : ℤ) ≤ o.maxLength.getD 100 →
      matchTimePattern (trimChars value.data) = none →
      parse value o = Except.error (ParseError.invalidFormat value)) ∧
    parse "1  h" {} = Except.ok 3600000 ∧
    parse "1 h" {} = Except.ok 3600000 ∧
    parse "1h" {} = Except.ok 3600000 ∧
    parse ".5h" {} = Except.ok 1800000 ∧
    parse "1h!" {} = Except.error (ParseError.invalidFormat "1h!") ∧
    parse "x1h" {} = Except.error (ParseError.invalidFormat "x1h") ∧
    parse "invalid" {} = Except.error (ParseError.invalidFormat "invalid") := by
  refine ⟨parse_num_sp_unit, ?_, by decide, by decide, by decide, by decide,
    by decide, by decide, by decide⟩
  intro value o h0 h1 hm
  rw [parse_eval value o h0 h1, hm]
  rfl

/-- Witness for the amended C5: the rejection part applied to the
concrete non-matching input `"abc"`. -/
theorem claim_C5_witness :
    parse "abc" {} = Except.error (ParseError.invalidFormat "abc") :=
  claim_C5_grammar.2.1 "abc" {} (by decide) (by decide) (by decide)

set_option maxRecDepth 4000 in
/-- Claim C8: with a non-empty input, `parse` fails with `TooLong`
reporting the configured limit exactly when the length strictly exceeds
`maxLength` (default 100); a valid input of length exactly `maxLength`
parses (the boundary is inclusive), and the emptiness check precedes the
length check (the empty string reports `EmptyInput` even when the length
check would also fire). -/
theorem claim_C8_too_long :
    (∀ (value : String) (o : ParseOptions), ¬ value.length = 0 →
      (parse value o = Except.error (ParseError.tooLong (o.maxLength.getD 100)) ↔
        (value.length : ℤ) > o.maxLength.getD 100)) ∧
    (∀ o : ParseOptions, parse "" o = Except.error ParseError.emptyInput) ∧
    parse "" ⟨some (-1)⟩ = Except.error ParseError.emptyInput ∧
    parse (String.mk (List.replicate 98 '0' ++ ['1', 'h'])) {} = Except.ok 3600000 ∧
    (String.mk (List.replicate 98 '0' ++ ['1', 'h'])).length = 100 ∧
    parse (String.mk (List.replicate 99 '0' ++ ['1', 'h'])) {} =
      Except.error (ParseError.tooLong 100) ∧
    (String.mk (List.replicate 99 '0' ++ ['1', 'h'])).length = 101 ∧
    parse "10h" ⟨some 3⟩ = Except.ok 36000000 ∧
    parse "10h" ⟨some 2⟩ = Except.error (ParseError.tooLong 2) := by
  refine ⟨?_, ?_, ?_, by decide, by decide, by decide, by decide, by decide,
    by decide⟩
  · intro value o h0
    constructor
    · intro h
      by_contra hng
      rw [parse_eval value o h0 (not_lt.mp hng)] at h
      cases hm : matchTimePattern (trimChars value.data) with
      | none =>
        rw [hm] at h
        exact absurd h (by simp [parseMatched])
      | some p =>
        obtain ⟨numStr, unitStr⟩ := p
        obtain ⟨m, hm2⟩ := matchTimePattern_resolves hm
        rw [hm, parseMatched_some_ok value numStr unitStr m hm2] at h
        exact absurd h (by simp)
    · intro hgt
      unfold parse
      rw [if_neg h0, if_pos hgt]
  · intro o
    unfold parse
    rw [if_pos (show ("" : String).length = 0 from rfl)]
  · unfold parse
    rw [if_pos (show ("" : String).length = 0 from rfl)]

/-- Witness for C8: the equivalence applied at the concrete input
`"10h"` with configured limit 1, which it exceeds. -/
theorem claim_C8_witness :
    parse "10h" ⟨some 1⟩ = Except.error (ParseError.tooLong 1) ↔
      (("10h" : String).length : ℤ) > 1 :=
  claim_C8_too_long.1 "10h" ⟨some 1⟩ (by decide)

/-- Claim C9: the combined entry point dispatches on the runtime type of
its argument: strings go to `parse` with the parse-relevant options,
numbers go to `format` with the format-relevant options, and any other
value is rejected with the unsupported-input-type error. -/
theorem claim_C9_dispatch :
    (∀ (s : String) (o : MsOptions),
      ms (MsValue.str s) o =
        ((parse s ⟨o.maxLength⟩).map Sum.inl).mapError MsError.parseFailure) ∧
    (∀ (q : ℚ) (o : MsOptions),
      ms (MsValue.num q) o = Except.ok (Sum.inr (format q ⟨o.long⟩))) ∧
    (∀ o : MsOptions, ms MsValue.other o = Except.error MsError.unsupportedInputType) ∧
    ms (MsValue.str "1h") {} = Except.ok (Sum.inl 3600000) ∧
    ms (MsValue.num 3600000) {} = Except.ok (Sum.inr "1h") ∧
    ms (MsValue.num 3600000) {long := true} = Except.ok (Sum.inr "1 hour") := by
  refine ⟨?_, ?_, ?_, by decide, by decide, by decide⟩
  · intro s o
    rfl
  · intro q o
    rfl
  · intro o
    rfl

end MsParser
